import Mathlib

/-!
Shallow embedding of `src/scripts/run_clangformat.py`, a PlatformIO (SCons)
helper script that registers two build targets: `format` (rewrites C/C++
sources in place with clang-format) and `verify` (checks formatting and
fails the build on violations).

The script is modelled as pure functions from an explicit `World` (the
ambient state the script observes: pip outcome, per-file formatter exit
codes, the filesystem and the two configured root directories) to a trace
of observable events (prints and external-process invocations) together
with a process exit code.  `env.Exit(1)` is modelled as terminating the run
with exit code 1; a normal return from a callback is exit code 0.
-/

set_option autoImplicit false

/-- A filesystem node: a plain file or a directory with a list of children.
Mirrors what `os.walk` observes. -/
inductive FSTree where
  | file (name : String) : FSTree
  | dir (name : String) (children : List FSTree) : FSTree

/-- Names of the file (non-directory) children, in listing order: the
`files` component that `os.walk` reports for one directory. -/
def fileNames : List FSTree → List String
  | [] => []
  | FSTree.file n :: rest => n :: fileNames rest
  | FSTree.dir _ _ :: rest => fileNames rest

/-- Python `s.endswith(p)` for a single suffix: `p` is a (case-sensitive) suffix
of `s`.  Defined over the underlying character lists so that it evaluates
by kernel reduction. -/
def strEndsWith (s p : String) : Bool :=
  p.data.isSuffixOf s.data

/-- Model of `os.path.join(a, b)` for a relative second component: inserts a `/`
separator unless `a` already ends with one. -/
def pathJoin (a b : String) : String :=
  if strEndsWith a "/" then a ++ b else a ++ "/" ++ b

mutual
/-- Model of `os.walk(p)` on the node found at path `p`: yields `(dirpath, filenames)`
pairs top-down.  Walking a path that names a regular file yields nothing
(`os.walk` swallows the scandir error when `onerror` is unset). -/
def walk : String → FSTree → List (String × List String)
  | _, FSTree.file _ => []
  | p, FSTree.dir _ cs => (p, fileNames cs) :: walkChildren p cs

/-- Continuation of `walk` over the children of a directory at path `p`. -/
def walkChildren : String → List FSTree → List (String × List String)
  | _, [] => []
  | p, FSTree.file _ :: rest => walkChildren p rest
  | p, FSTree.dir n cs :: rest =>
      walk (pathJoin p n) (FSTree.dir n cs) ++ walkChildren p rest
end

/-- The filesystem as the script observes it: resolves a path string to the
node there, `none` when `os.path.exists` is false. -/
structure FileSystem where
  lookup : String → Option FSTree

/-- The two configuration entries the script reads from the build
environment: `env.get("PROJECT_SRC_DIR")` and `env.get("PROJECT_INCLUDE_DIR")`.
`none` models an unset key. -/
structure Env where
  projectSrcDir : Option String
  projectIncludeDir : Option String

/-- The list `check_folders = [env.get("PROJECT_SRC_DIR"), env.get("PROJECT_INCLUDE_DIR")]`. -/
def check_folders (env : Env) : List (Option String) :=
  [env.projectSrcDir, env.projectIncludeDir]

/-- The tuple `valid_extensions = ('.c','.cpp', '.h', '.hpp', '.cc', '.cxx', '.hxx','.hh')`. -/
def valid_extensions : List String :=
  [".c", ".cpp", ".h", ".hpp", ".cc", ".cxx", ".hxx", ".hh"]

/-- Python `file.endswith(valid_extensions)`: true when some tuple element is a
suffix of the file name (case-sensitive). -/
def endsWithValid (file : String) : Bool :=
  valid_extensions.any (fun e => strEndsWith file e)

/-- The inner `for file in files` loop body of `get_project_files` for one
walked directory: keep the names with a recognized extension and join each
onto the directory path. -/
def process_dir (root : String) (files : List String) : List String :=
  (files.filter endsWithValid).map (pathJoin root)

/-- The per-folder part of the `for folder in check_folders` loop:
`continue` on an unset/empty or non-existent folder, otherwise walk it and
collect matching files. -/
def folder_files (fs : FileSystem) : Option String → List String
  | none => []
  | some f =>
    if f.isEmpty then []
    else
      match fs.lookup f with
      | none => []
      | some t => (walk f t).flatMap (fun rf => process_dir rf.1 rf.2)

/-- Model of `get_project_files(env)`: scans the configured folders for C/C++ files,
appending matches in walk order. -/
def get_project_files (fs : FileSystem) (env : Env) : List String :=
  (check_folders env).flatMap (folder_files fs)

/-- Model of `os.path.basename` for paths with `/` separators. -/
def basename (p : String) : String :=
  (p.splitOn "/").getLastD ""

/-- Observable events of a run: a pip invocation, an in-place clang-format
invocation (`env.Execute`, result ignored by the script), a check-mode
clang-format invocation (`subprocess.run` with `-n --Werror`, result
inspected), and a printed line. -/
inductive Event where
  | pipInstall : Event
  | execFormat (file : String) (result : Int) : Event
  | runCheck (file : String) (result : Int) : Event
  | msg (text : String) : Event
deriving DecidableEq

/-- Everything outside the script that determines a run: whether a
clang-format binary is already present on the host (never consulted by the
script), whether `pip install clang-format` succeeds, the exit codes the
external formatter would return per file in each mode, the filesystem and
the build-environment configuration. -/
structure World where
  clangFormatPresent : Bool
  pipOk : Bool
  fmtResult : String → Int
  checkResult : String → Int
  fs : FileSystem
  env : Env

/-- Model of `install_clang_format()`: prints, unconditionally invokes
`pip install clang-format`, and on a `CalledProcessError` prints a
diagnostic and exits 1.  Returns the trace so far and whether the run may
continue. -/
def install_clang_format (w : World) : List Event × Bool :=
  if w.pipOk then
    ([Event.msg "Checking for clang-format...", Event.pipInstall], true)
  else
    ([Event.msg "Checking for clang-format...", Event.pipInstall,
      Event.msg "Error: Failed to install clang-format."], false)

/-- Model of `format_callback`: install, collect, then `clang-format -i` each file.
Returns the full trace and the process exit code. -/
def format_callback (w : World) : List Event × Nat :=
  let inst := install_clang_format w
  if inst.2 = false then (inst.1, 1)
  else
    let files := get_project_files w.fs w.env
    if files = [] then
      (inst.1 ++ [Event.msg "No source files found to format."], 0)
    else
      (inst.1
        ++ [Event.msg ("Formatting " ++ toString files.length ++ " files...")]
        ++ files.map (fun file => Event.execFormat file (w.fmtResult file))
        ++ [Event.msg "Done!"], 0)

/-- The `for file in files` loop of `verify_callback`: run
`clang-format -n --Werror` on each file, print a per-file status line, and
accumulate the error count.  Returns the loop trace and the final count. -/
def verify_loop (w : World) : Nat → List String → List Event × Nat
  | ec, [] => ([], ec)
  | ec, file :: rest =>
    let r := w.checkResult file
    let ev :=
      if r ≠ 0 then
        [Event.runCheck file r, Event.msg ("❌ Formatting Error: " ++ file)]
      else
        [Event.runCheck file r, Event.msg ("✅ Clean: " ++ basename file)]
    let acc := verify_loop w (if r ≠ 0 then ec + 1 else ec) rest
    (ev ++ acc.1, acc.2)

/-- Model of `verify_callback`: install, collect, check every file, then either fail
the build (`env.Exit(1)`) with a summary naming the error count, or print a
success summary and return normally. -/
def verify_callback (w : World) : List Event × Nat :=
  let inst := install_clang_format w
  if inst.2 = false then (inst.1, 1)
  else
    let files := get_project_files w.fs w.env
    if files = [] then
      (inst.1 ++ [Event.msg "No source files found to verify."], 0)
    else
      let lp := verify_loop w 0 files
      if lp.2 > 0 then
        (inst.1
          ++ [Event.msg ("Verifying " ++ toString files.length ++ " files...")]
          ++ lp.1
          ++ [Event.msg ("\nFAILED: " ++ toString lp.2 ++ " file(s) need formatting."),
              Event.msg "Run \x27pio run -t format\x27 to fix them."], 1)
      else
        (inst.1
          ++ [Event.msg ("Verifying " ++ toString files.length ++ " files...")]
          ++ lp.1
          ++ [Event.msg "\nSUCCESS: All files are formatted correctly."], 0)

/-!
### Spec-side characterizations

`spec_valid_suffix` and `discovered` restate, in the words of the spec,
what "recognized extension" and "recursively discovered under a root" mean;
the theorems below relate the script functions to them.
-/

/-- The eight recognized suffixes exactly as the spec enumerates them. -/
def spec_valid_suffix (fname : String) : Bool :=
  strEndsWith fname ".c" || strEndsWith fname ".cpp" ||
  strEndsWith fname ".h" || strEndsWith fname ".hpp" ||
  strEndsWith fname ".cc" || strEndsWith fname ".cxx" ||
  strEndsWith fname ".hxx" || strEndsWith fname ".hh"

/-- File name `fname` is reported by the walk in directory `root` when the
collector scans the configured entry `folder` (so `folder` is set,
non-empty and exists). -/
def discovered (fs : FileSystem) (folder : Option String) (root fname : String) : Prop :=
  ∃ f t, folder = some f ∧ f.isEmpty = false ∧ fs.lookup f = some t ∧
    ∃ entry ∈ walk f t, entry.1 = root ∧ fname ∈ entry.2

/-- A disk: file contents indexed by path.  Only `execFormat` events (the
in-place formatter invocations) change it; `fmt` is the content rewrite the
external formatter would perform. -/
def apply_event (fmt : String → String) (d : String → String) : Event → String → String
  | Event.execFormat f _ => fun p => if p = f then fmt (d p) else d p
  | _ => d

/-- Replay a trace of events against a disk. -/
def apply_events (fmt : String → String) (d : String → String) :
    List Event → String → String
  | [] => d
  | e :: rest => apply_events fmt (apply_event fmt d e) rest

/-! ### Helper lemmas -/

theorem str_append_left_cancel {r a b : String} (h : r ++ a = r ++ b) : a = b := by
  apply String.ext
  have h2 := congrArg String.data h
  simpa [String.data_append] using h2

theorem pathJoin_right_inj {root a b : String}
    (h : pathJoin root a = pathJoin root b) : a = b := by
  unfold pathJoin at h
  cases hr : strEndsWith root "/" with
  | true =>
    rw [hr] at h
    simp only [if_pos rfl, if_true] at h
    exact str_append_left_cancel h
  | false =>
    rw [hr] at h
    simp only [Bool.false_eq_true, if_false] at h
    exact str_append_left_cancel (r := root ++ "/") (by
      rw [String.append_assoc, String.append_assoc] at h ⊢
      exact h)

theorem mem_process_dir {root : String} {files : List String} {x : String} :
    x ∈ process_dir root files ↔
      ∃ fname, fname ∈ files ∧ endsWithValid fname = true ∧ x = pathJoin root fname := by
  simp only [process_dir, List.mem_map, List.mem_filter]
  constructor
  · rintro ⟨fname, ⟨hmem, hval⟩, hx⟩
    exact ⟨fname, hmem, hval, hx.symm⟩
  · rintro ⟨fname, hmem, hval, hx⟩
    exact ⟨fname, ⟨hmem, hval⟩, hx.symm⟩

theorem pathJoin_mem_process_dir {root fname : String} {files : List String} :
    pathJoin root fname ∈ process_dir root files ↔
      fname ∈ files ∧ endsWithValid fname = true := by
  rw [mem_process_dir]
  constructor
  · rintro ⟨g, hmem, hval, hx⟩
    cases pathJoin_right_inj hx.symm
    exact ⟨hmem, hval⟩
  · rintro ⟨hmem, hval⟩
    exact ⟨fname, hmem, hval, rfl⟩

theorem mem_folder_files {fs : FileSystem} {folder : Option String} {x : String} :
    x ∈ folder_files fs folder ↔
      ∃ root fname, discovered fs folder root fname ∧
        endsWithValid fname = true ∧ x = pathJoin root fname := by
  cases folder with
  | none => simp [folder_files, discovered]
  | some f =>
    cases hf : f.isEmpty with
    | true =>
      simp only [folder_files, hf, if_true, List.not_mem_nil, false_iff]
      rintro ⟨root, fname, ⟨g, t, hg, hge, _⟩, _, _⟩
      cases hg
      rw [hf] at hge
      exact Bool.noConfusion hge
    | false =>
      cases hl : fs.lookup f with
      | none =>
        simp only [folder_files, hf, hl, Bool.false_eq_true, if_false,
          List.not_mem_nil, false_iff]
        rintro ⟨root, fname, ⟨g, t, hg, _, hlk, _⟩, _, _⟩
        cases hg
        rw [hl] at hlk
        exact Option.noConfusion hlk
      | some t =>
        simp only [folder_files, hf, hl, Bool.false_eq_true, if_false,
          List.mem_flatMap]
        constructor
        · rintro ⟨entry, hentry, hx⟩
          rcases mem_process_dir.1 hx with ⟨fname, hmem, hval, hx'⟩
          exact ⟨entry.1, fname, ⟨f, t, rfl, hf, hl, entry, hentry, rfl, hmem⟩, hval, hx'⟩
        · rintro ⟨root, fname, ⟨g, t', hg, _, hlk, entry, hentry, hroot, hmem⟩, hval, hx⟩
          cases hg
          rw [hl] at hlk
          cases hlk
          refine ⟨entry, hentry, mem_process_dir.2 ⟨fname, hmem, hval, ?_⟩⟩
          rw [hx, hroot]

theorem get_project_files_eq_append (fs : FileSystem) (env : Env) :
    get_project_files fs env =
      folder_files fs env.projectSrcDir ++ folder_files fs env.projectIncludeDir := by
  simp [get_project_files, check_folders]

theorem verify_loop_count (w : World) (ec : Nat) (l : List String) :
    (verify_loop w ec l).2 =
      ec + (l.filter (fun f => decide (w.checkResult f ≠ 0))).length := by
  induction l generalizing ec with
  | nil => simp [verify_loop]
  | cons f rest ih =>
    simp only [verify_loop, List.filter_cons]
    by_cases h : w.checkResult f ≠ 0
    · rw [if_pos h, ih, if_pos (by simpa using h), List.length_cons]
      omega
    · rw [if_neg h, ih, if_neg (by simpa using h)]

theorem verify_loop_mem_check (w : World) (ec : Nat) (l : List String) :
    ∀ f ∈ l, Event.runCheck f (w.checkResult f) ∈ (verify_loop w ec l).1 := by
  induction l generalizing ec with
  | nil => intro f hf; cases hf
  | cons g rest ih =>
    intro f hf
    rcases List.mem_cons.1 hf with hfg | hfr
    · subst hfg
      by_cases h : w.checkResult f ≠ 0
      · simp [verify_loop, h]
      · simp [verify_loop, h]
    · simp only [verify_loop]
      exact List.mem_append.2 (Or.inr (ih _ f hfr))

theorem verify_loop_no_exec (w : World) (ec : Nat) (l : List String) :
    ∀ file r, Event.execFormat file r ∉ (verify_loop w ec l).1 := by
  induction l generalizing ec with
  | nil => intro file r h; simp [verify_loop] at h
  | cons g rest ih =>
    intro file r h
    simp only [verify_loop] at h
    rcases List.mem_append.1 h with h1 | h2
    · by_cases hg : w.checkResult g ≠ 0
      · rw [if_pos hg] at h1
        simp at h1
      · rw [if_neg hg] at h1
        simp at h1
    · exact ih _ file r h2

theorem apply_events_eq_of_no_exec (fmt d : String → String) (l : List Event)
    (h : ∀ f r, Event.execFormat f r ∉ l) : apply_events fmt d l = d := by
  induction l generalizing d with
  | nil => rfl
  | cons e rest ih =>
    have he : apply_event fmt d e = d := by
      cases e with
      | execFormat f r => exact absurd (List.mem_cons_self _ _) (h f r)
      | pipInstall => rfl
      | runCheck f r => rfl
      | msg s => rfl
    rw [apply_events, he]
    exact ih d (fun f r hm => h f r (List.mem_cons_of_mem _ hm))

/-!
### Concrete inputs

Small worlds used to instantiate the theorems below at concrete inputs.
`fsDemo` holds a directory `src` with `a.cpp` and `b.py`, a directory `inc`
with `util.h`, and a regular file at path `srcfile`.
-/

/-- A small concrete filesystem. -/
def fsDemo : FileSystem :=
  ⟨fun p =>
    if p = "src" then
      some (FSTree.dir "src" [FSTree.file "a.cpp", FSTree.file "b.py"])
    else if p = "inc" then
      some (FSTree.dir "inc" [FSTree.file "util.h"])
    else if p = "srcfile" then
      some (FSTree.file "srcfile")
    else none⟩

/-- Configuration with two distinct existing roots. -/
def envDemo : Env := ⟨some "src", some "inc"⟩

/-- Configuration with both entries naming the same directory. -/
def envOverlap : Env := ⟨some "src", some "src"⟩

/-- Configuration with both entries unset. -/
def envUnset : Env := ⟨none, none⟩

/-- A world where pip succeeds and exactly `src/a.cpp` fails the check. -/
def wDemo : World :=
  ⟨false, true, fun _ => 0, fun f => if f = "src/a.cpp" then 1 else 0,
   fsDemo, envDemo⟩

/-- A world where a clang-format binary is already present on the host. -/
def wPresent : World :=
  ⟨true, true, fun _ => 0, fun _ => 0, fsDemo, envDemo⟩

/-- A world where `pip install clang-format` fails. -/
def wPipFail : World :=
  ⟨false, false, fun _ => 0, fun _ => 0, fsDemo, envDemo⟩

/-- A world with both configuration entries unset: no files are collected. -/
def wUnset : World :=
  ⟨false, true, fun _ => 0, fun _ => 0, fsDemo, envUnset⟩

/-- A world where every collected file passes the check. -/
def wAllClean : World :=
  ⟨false, true, fun _ => 0, fun _ => 0, fsDemo, envDemo⟩

/-!
### Claim theorems
-/

/-- C2, counterexample: with both configured roots set to the same existing
directory the collector lists the same file twice, so the returned sequence
does not contain each matching file at most once. -/
theorem collector_duplicate_counterexample :
    get_project_files fsDemo envOverlap = ["src/a.cpp", "src/a.cpp"] ∧
    ¬ (get_project_files fsDemo envOverlap).Nodup :=
  ⟨rfl, by decide⟩

/-- C2, amended: the collector returns the per-root contributions
concatenated; a path is collected iff it is a file discovered by the walk
under one of the configured roots (unset, empty and non-existent roots
contribute nothing) and its name has a recognized extension; and whenever
the two contributions are duplicate-free and share no path — in particular
whenever the roots do not overlap — each matching file appears exactly
once. -/
theorem collector_characterization (fs : FileSystem) (env : Env)
    (h1 : (folder_files fs env.projectSrcDir).Nodup)
    (h2 : (folder_files fs env.projectIncludeDir).Nodup)
    (hd : ∀ x ∈ folder_files fs env.projectSrcDir,
      x ∉ folder_files fs env.projectIncludeDir) :
    get_project_files fs env =
      folder_files fs env.projectSrcDir ++ folder_files fs env.projectIncludeDir ∧
    (∀ x, x ∈ get_project_files fs env ↔
      ∃ root fname,
        (discovered fs env.projectSrcDir root fname ∨
         discovered fs env.projectIncludeDir root fname) ∧
        endsWithValid fname = true ∧ x = pathJoin root fname) ∧
    (get_project_files fs env).Nodup := by
  refine ⟨get_project_files_eq_append fs env, ?_, ?_⟩
  · intro x
    rw [get_project_files_eq_append, List.mem_append, mem_folder_files,
      mem_folder_files]
    constructor
    · rintro (⟨root, fname, hdisc, hval, hx⟩ | ⟨root, fname, hdisc, hval, hx⟩)
      · exact ⟨root, fname, Or.inl hdisc, hval, hx⟩
      · exact ⟨root, fname, Or.inr hdisc, hval, hx⟩
    · rintro ⟨root, fname, hdisc | hdisc, hval, hx⟩
      · exact Or.inl ⟨root, fname, hdisc, hval, hx⟩
      · exact Or.inr ⟨root, fname, hdisc, hval, hx⟩
  · rw [get_project_files_eq_append]
    exact List.Nodup.append h1 h2 (fun a ha hb => hd a ha hb)

/-- C2, witness: on two distinct, non-overlapping roots the hypotheses hold
and the collected list is duplicate-free. -/
theorem collector_characterization_witness :
    (folder_files fsDemo envDemo.projectSrcDir).Nodup ∧
    (folder_files fsDemo envDemo.projectIncludeDir).Nodup ∧
    (∀ x ∈ folder_files fsDemo envDemo.projectSrcDir,
      x ∉ folder_files fsDemo envDemo.projectIncludeDir) ∧
    (get_project_files fsDemo envDemo).Nodup :=
  ⟨by decide, by decide, by decide,
    (collector_characterization fsDemo envDemo (by decide) (by decide)
      (by decide)).2.2⟩

/-- C4: if the pip installation fails, both targets terminate at once with
exit status 1 and the diagnostic printed; the whole trace is exactly the
installation trace, so no file collection result is used and no formatter
invocation of either kind happens. -/
theorem install_failure_aborts (w : World) (hp : w.pipOk = false) :
    format_callback w =
      ([Event.msg "Checking for clang-format...", Event.pipInstall,
        Event.msg "Error: Failed to install clang-format."], 1) ∧
    verify_callback w =
      ([Event.msg "Checking for clang-format...", Event.pipInstall,
        Event.msg "Error: Failed to install clang-format."], 1) := by
  constructor <;>
    simp [format_callback, verify_callback, install_clang_format, hp]

/-- C4, witness: the aborting run at a concrete world whose pip fails. -/
theorem install_failure_aborts_witness :
    format_callback wPipFail =
      ([Event.msg "Checking for clang-format...", Event.pipInstall,
        Event.msg "Error: Failed to install clang-format."], 1) :=
  (install_failure_aborts wPipFail rfl).1

/-- C5, counterexample: in a world where the clang-format binary is already
present, the installer nevertheless performs the pip installation command,
so it is not the case that no installation is performed when the formatter
is present. -/
theorem installer_runs_when_present_counterexample :
    wPresent.clangFormatPresent = true ∧
    Event.pipInstall ∈ (install_clang_format wPresent).1 :=
  ⟨rfl, by decide⟩

/-- C5, amended: the installer invokes `pip install clang-format`
unconditionally — on every run, irrespective of whether the formatter is
already present (it never consults presence) — and the run continues
exactly when that invocation succeeds. -/
theorem installer_unconditional (w : World) :
    Event.pipInstall ∈ (install_clang_format w).1 ∧
    (install_clang_format w).2 = w.pipOk := by
  by_cases hp : w.pipOk <;> simp [install_clang_format, hp]

/-- C10: a configured root that exists but is a regular file contributes no
files and raises no error: the collector returns exactly what it returns
with that root unset, in either configuration slot. -/
theorem file_root_contributes_nothing (fs : FileSystem) (f n : String)
    (hf : fs.lookup f = some (FSTree.file n)) :
    (∀ other, get_project_files fs ⟨some f, other⟩ =
      get_project_files fs ⟨none, other⟩) ∧
    (∀ other, get_project_files fs ⟨other, some f⟩ =
      get_project_files fs ⟨other, none⟩) := by
  have hff : folder_files fs (some f) = [] := by
    by_cases he : f.isEmpty = true <;> simp [folder_files, hf, he, walk]
  have hnone : folder_files fs none = [] := rfl
  constructor <;> intro other <;>
    simp [get_project_files_eq_append, hff, hnone]

/-- C10, witness: the regular file at path `srcfile` in `fsDemo`,
configured as the source root, contributes nothing. -/
theorem file_root_contributes_nothing_witness :
    get_project_files fsDemo ⟨some "srcfile", some "inc"⟩ =
      get_project_files fsDemo ⟨none, some "inc"⟩ :=
  (file_root_contributes_nothing fsDemo "srcfile" "srcfile" rfl).1 (some "inc")

/-- C3: in format mode, whenever the installation succeeds the exit status
is 0, and two runs over the same collected file set that differ only in the
per-file results of the in-place formatter invocations exit identically:
the script never inspects those results. -/
theorem format_exit_independent (w : World) (r1 r2 : String → Int)
    (hp : w.pipOk = true) :
    (format_callback { w with fmtResult := r1 }).2 = 0 ∧
    (format_callback { w with fmtResult := r2 }).2 = 0 ∧
    (format_callback { w with fmtResult := r1 }).2 =
      (format_callback { w with fmtResult := r2 }).2 := by
  have h : ∀ r : String → Int, (format_callback { w with fmtResult := r }).2 = 0 := by
    intro r
    by_cases hemp : get_project_files w.fs w.env = [] <;>
      simp [format_callback, install_clang_format, hp, hemp]
  exact ⟨h r1, h r2, by rw [h r1, h r2]⟩

/-- C3, witness: two result assignments (all zero, all one) over the same
world both exit 0. -/
theorem format_exit_independent_witness :
    (format_callback { wDemo with fmtResult := fun _ => 0 }).2 = 0 ∧
    (format_callback { wDemo with fmtResult := fun _ => 1 }).2 = 0 :=
  ⟨(format_exit_independent wDemo (fun _ => 0) (fun _ => 1) rfl).1,
   (format_exit_independent wDemo (fun _ => 0) (fun _ => 1) rfl).2.1⟩

/-- C6: when installation succeeds and the collected file set is empty,
both targets print their no-files message and exit 0, and neither trace
contains a formatter invocation of either kind. -/
theorem empty_fileset_success (w : World) (hp : w.pipOk = true)
    (he : get_project_files w.fs w.env = []) :
    (format_callback w).2 = 0 ∧
    Event.msg "No source files found to format." ∈ (format_callback w).1 ∧
    (verify_callback w).2 = 0 ∧
    Event.msg "No source files found to verify." ∈ (verify_callback w).1 ∧
    (∀ f r, Event.execFormat f r ∉ (format_callback w).1) ∧
    (∀ f r, Event.runCheck f r ∉ (format_callback w).1) ∧
    (∀ f r, Event.execFormat f r ∉ (verify_callback w).1) ∧
    (∀ f r, Event.runCheck f r ∉ (verify_callback w).1) := by
  simp [format_callback, verify_callback, install_clang_format, hp, he]

/-- C6, witness: the world with both roots unset collects nothing and
succeeds. -/
theorem empty_fileset_success_witness :
    get_project_files wUnset.fs wUnset.env = [] ∧
    (format_callback wUnset).2 = 0 ∧ (verify_callback wUnset).2 = 0 := by
  have h := empty_fileset_success wUnset rfl rfl
  exact ⟨rfl, h.1, h.2.2.1⟩

/-- C8: the recognized extensions are exactly the eight listed suffixes;
the filter keeps a file name iff one of them is a (case-sensitive) suffix
of it; a discovered directory entry is collected iff its name passes that
filter; and `a.cpp` is kept while `b.py` and `x.CPP` are excluded. -/
theorem extension_filter_spec :
    valid_extensions = [".c", ".cpp", ".h", ".hpp", ".cc", ".cxx", ".hxx", ".hh"] ∧
    (∀ fname, endsWithValid fname = spec_valid_suffix fname) ∧
    (∀ root fname files, pathJoin root fname ∈ process_dir root files ↔
      (fname ∈ files ∧ endsWithValid fname = true)) ∧
    endsWithValid "a.cpp" = true ∧
    endsWithValid "b.py" = false ∧
    endsWithValid "x.CPP" = false := by
  refine ⟨rfl, ?_, ?_, rfl, rfl, rfl⟩
  · intro fname
    simp [endsWithValid, valid_extensions, spec_valid_suffix, List.any_cons,
      List.any_nil, Bool.or_assoc]
  · intro root fname files
    exact pathJoin_mem_process_dir

/-- Shape of a verify run that gets past installation and collects a
non-empty file set: install trace, banner, per-file loop trace, then the
summary, with the exit code decided by the final error count. -/
theorem verify_callback_shape (w : World) (hp : w.pipOk = true)
    (hne : get_project_files w.fs w.env ≠ []) :
    verify_callback w =
      ([Event.msg "Checking for clang-format...", Event.pipInstall]
        ++ [Event.msg ("Verifying " ++
              toString (get_project_files w.fs w.env).length ++ " files...")]
        ++ (verify_loop w 0 (get_project_files w.fs w.env)).1
        ++ (if 0 < (verify_loop w 0 (get_project_files w.fs w.env)).2 then
              [Event.msg ("\nFAILED: " ++
                  toString (verify_loop w 0 (get_project_files w.fs w.env)).2 ++
                  " file(s) need formatting."),
               Event.msg "Run \x27pio run -t format\x27 to fix them."]
            else
              [Event.msg "\nSUCCESS: All files are formatted correctly."]),
       if 0 < (verify_loop w 0 (get_project_files w.fs w.env)).2 then 1 else 0) := by
  by_cases hpos : 0 < (verify_loop w 0 (get_project_files w.fs w.env)).2 <;>
    simp [verify_callback, install_clang_format, hp, hne, hpos]

/-- C1: in verify mode (installation succeeding), when the external check
reports N collected files as non-conforming, the run exits with status 1
and prints the FAILED summary containing the count N; when N = 0 it exits
with status 0 and prints a success message (the all-clean summary, or the
no-files message when nothing was collected). -/
theorem verify_exit_code_spec (w : World) (hp : w.pipOk = true) :
    (0 < ((get_project_files w.fs w.env).filter
        (fun f => decide (w.checkResult f ≠ 0))).length →
      (verify_callback w).2 = 1 ∧
      Event.msg ("\nFAILED: " ++
          toString ((get_project_files w.fs w.env).filter
            (fun f => decide (w.checkResult f ≠ 0))).length ++
          " file(s) need formatting.") ∈ (verify_callback w).1) ∧
    (((get_project_files w.fs w.env).filter
        (fun f => decide (w.checkResult f ≠ 0))).length = 0 →
      (verify_callback w).2 = 0 ∧
      (Event.msg "\nSUCCESS: All files are formatted correctly."
          ∈ (verify_callback w).1 ∨
       Event.msg "No source files found to verify." ∈ (verify_callback w).1)) := by
  constructor
  · intro hN
    have hne : get_project_files w.fs w.env ≠ [] := by
      intro h
      rw [h] at hN
      simp at hN
    have hcount := verify_loop_count w 0 (get_project_files w.fs w.env)
    rw [Nat.zero_add] at hcount
    have hsh := verify_callback_shape w hp hne
    have hexit : (verify_callback w).2 =
        (if 0 < (verify_loop w 0 (get_project_files w.fs w.env)).2 then 1 else 0) := by
      rw [hsh]
    have htr : (verify_callback w).1 =
        ([Event.msg "Checking for clang-format...", Event.pipInstall]
          ++ [Event.msg ("Verifying " ++
                toString (get_project_files w.fs w.env).length ++ " files...")]
          ++ (verify_loop w 0 (get_project_files w.fs w.env)).1
          ++ (if 0 < (verify_loop w 0 (get_project_files w.fs w.env)).2 then
                [Event.msg ("\nFAILED: " ++
                    toString (verify_loop w 0 (get_project_files w.fs w.env)).2 ++
                    " file(s) need formatting."),
                 Event.msg "Run \x27pio run -t format\x27 to fix them."]
              else
                [Event.msg "\nSUCCESS: All files are formatted correctly."])) := by
      rw [hsh]
    constructor
    · rw [hexit, hcount, if_pos hN]
    · rw [htr, hcount, if_pos hN]
      simp [List.mem_append]
  · intro hN
    by_cases hemp : get_project_files w.fs w.env = []
    · exact ⟨by simp [verify_callback, install_clang_format, hp, hemp],
        Or.inr (by simp [verify_callback, install_clang_format, hp, hemp])⟩
    · have hcount := verify_loop_count w 0 (get_project_files w.fs w.env)
      rw [Nat.zero_add] at hcount
      have hnpos : ¬ 0 < (verify_loop w 0 (get_project_files w.fs w.env)).2 := by
        rw [hcount, hN]
        exact Nat.lt_irrefl 0
      rw [verify_callback_shape w hp hemp]
      exact ⟨by simp [hnpos], Or.inl (by simp [hnpos])⟩

/-- C1, witness: a concrete world with one failing file out of two exits 1
and prints the summary naming the count 1. -/
theorem verify_exit_code_spec_witness :
    0 < ((get_project_files wDemo.fs wDemo.env).filter
        (fun f => decide (wDemo.checkResult f ≠ 0))).length ∧
    (verify_callback wDemo).2 = 1 ∧
    Event.msg ("\nFAILED: " ++
        toString ((get_project_files wDemo.fs wDemo.env).filter
          (fun f => decide (wDemo.checkResult f ≠ 0))).length ++
        " file(s) need formatting.") ∈ (verify_callback wDemo).1 :=
  ⟨by decide, ((verify_exit_code_spec wDemo rfl).1 (by decide)).1,
    ((verify_exit_code_spec wDemo rfl).1 (by decide)).2⟩

/-- C7: a verify run contains no in-place formatter invocation — every
formatter call in its trace is the dry-run check — so replaying the trace
against any disk, whatever rewrite the in-place formatter would apply,
leaves every file content unchanged. -/
theorem verify_never_mutates (w : World) (fmt d : String → String) :
    (∀ f r, Event.execFormat f r ∉ (verify_callback w).1) ∧
    apply_events fmt d (verify_callback w).1 = d := by
  have hno : ∀ f r, Event.execFormat f r ∉ (verify_callback w).1 := by
    intro f r hmem
    by_cases hp : w.pipOk = true
    · by_cases hemp : get_project_files w.fs w.env = []
      · simp [verify_callback, install_clang_format, hp, hemp] at hmem
      · rw [verify_callback_shape w hp hemp] at hmem
        rcases List.mem_append.1 hmem with h | h
        · rcases List.mem_append.1 h with h2 | h2
          · rcases List.mem_append.1 h2 with h3 | h3 <;> simp at h3
          · exact verify_loop_no_exec w 0 _ f r h2
        · by_cases hpos : 0 < (verify_loop w 0 (get_project_files w.fs w.env)).2
          · rw [if_pos hpos] at h
            simp at h
          · rw [if_neg hpos] at h
            simp at h
    · simp [verify_callback, install_clang_format, hp] at hmem
  exact ⟨hno, apply_events_eq_of_no_exec fmt d _ hno⟩

/-- C9: in verify mode every collected file is checked (a per-file failure
is recorded in the counter and does not stop the loop), the final count is
the number of failing files, and the trace ends with a summary that comes
after all per-file checks, so the exit decision is made only once all
files are processed. -/
theorem verify_checks_all_files (w : World) (hp : w.pipOk = true)
    (hne : get_project_files w.fs w.env ≠ []) :
    (∀ f ∈ get_project_files w.fs w.env,
      Event.runCheck f (w.checkResult f) ∈ (verify_callback w).1) ∧
    (verify_loop w 0 (get_project_files w.fs w.env)).2 =
      ((get_project_files w.fs w.env).filter
        (fun f => decide (w.checkResult f ≠ 0))).length ∧
    (∃ summary,
      (verify_callback w).1 =
        [Event.msg "Checking for clang-format...", Event.pipInstall,
         Event.msg ("Verifying " ++
           toString (get_project_files w.fs w.env).length ++ " files...")]
          ++ (verify_loop w 0 (get_project_files w.fs w.env)).1 ++ summary ∧
      (∀ f r, Event.runCheck f r ∉ summary)) := by
  refine ⟨?_, ?_, ?_⟩
  · intro f hf
    rw [verify_callback_shape w hp hne]
    exact List.mem_append_left _
      (List.mem_append_right _ (verify_loop_mem_check w 0 _ f hf))
  · have h := verify_loop_count w 0 (get_project_files w.fs w.env)
    rw [Nat.zero_add] at h
    exact h
  · refine ⟨(if 0 < (verify_loop w 0 (get_project_files w.fs w.env)).2 then
        [Event.msg ("\nFAILED: " ++
            toString (verify_loop w 0 (get_project_files w.fs w.env)).2 ++
            " file(s) need formatting."),
         Event.msg "Run \x27pio run -t format\x27 to fix them."]
      else
        [Event.msg "\nSUCCESS: All files are formatted correctly."]), ?_, ?_⟩
    · rw [verify_callback_shape w hp hne]
      simp
    · intro f r hmem
      by_cases hpos : 0 < (verify_loop w 0 (get_project_files w.fs w.env)).2
      · rw [if_pos hpos] at hmem
        simp at hmem
      · rw [if_neg hpos] at hmem
        simp at hmem

/-- C9, witness: in the concrete world both collected files are checked
(here the failing one), and the recorded count matches the failing set. -/
theorem verify_checks_all_files_witness :
    (verify_loop wDemo 0 (get_project_files wDemo.fs wDemo.env)).2 =
      ((get_project_files wDemo.fs wDemo.env).filter
        (fun f => decide (wDemo.checkResult f ≠ 0))).length ∧
    Event.runCheck "src/a.cpp" (wDemo.checkResult "src/a.cpp")
      ∈ (verify_callback wDemo).1 :=
  ⟨(verify_checks_all_files wDemo rfl (by decide)).2.1,
   (verify_checks_all_files wDemo rfl (by decide)).1 "src/a.cpp" (by decide)⟩
